import Mathlib

/-!
# Shallow embedding of `irr123/di` (src/di.go)

A tiny lazy dependency-injection container for Go. The embedding models one
container instantiated at a single entity value type `V` (Go's generic
`entityImpl[T]` with a fixed `T`); caller-supplied setup, middleware and
cleanup functions are Go closures with side effects, modelled as explicit
state transformers over a world type `ω` threaded through every call.

Go's `panic` sites (`GetNamed` on a missing key or a failed setup, and the
nil-function-call crash a middleware over an absent setup produces) are
modelled as distinguished result constructors rather than as recorded errors,
mirroring the fact that a Go panic aborts the call: `GetRes.panicMsg` for the
two `panic(err.Error())` sites in `GetNamed` (which first append to `c.errs`),
and `GetRes.nilPanic` for the runtime nil-call crash (which appends nothing).
-/

set_option autoImplicit false

namespace DI

universe u v

variable {ω : Type u} {V : Type v}

/-- Result of a Go `func() (T, error)` setup call, with a third constructor
for the runtime panic raised by calling a `nil` function value (which the
closure built by `OptMiddleware` can do when it captured a nil setup). -/
inductive SetupRes (V : Type v) where
  | ok (val : V)
  | err (msg : String)
  | nilPanic
  deriving Repr, DecidableEq

/-- A Go setup closure `func() (T, error)`: an effectful function on the
world `ω`. -/
abbrev SetupFn (ω : Type u) (V : Type v) := ω → ω × SetupRes V

/-- A Go release closure `func() error`: effectful, returns `none` for a nil
error and `some msg` for a non-nil error with message `msg`. -/
abbrev CleanupFn (ω : Type u) := ω → ω × Option String

/-- `entityImpl[T]` from src/di.go: one slot's state. `setup` and `cleanup`
are nilable function fields (`Option`); `val` starts at the zero value of `T`
(`default`). -/
structure entityImpl (ω : Type u) (V : Type v) where
  setup : Option (SetupFn ω V)
  cleanup : Option (V → CleanupFn ω)
  noReuse : Bool
  val : V

/-- Go's `new(entityImpl[T])`: the zero value of the struct. -/
def entityImpl.new [Inhabited V] : entityImpl ω V :=
  { setup := none, cleanup := none, noReuse := false, val := default }

/-- The `Container` struct from src/di.go: the entity map (an association
list keyed by the derived entity name), the release stack, and the
accumulated error list (Go stores non-nil `error` values; we store their
messages). -/
structure Container (ω : Type u) (V : Type v) where
  entities : List (String × entityImpl ω V)
  cleanup : List (CleanupFn ω)
  errs : List String

/-- `New()`: an empty container. -/
def New : Container ω V :=
  { entities := [], cleanup := [], errs := [] }

/-- Go map read `c.entities[entityName]`. -/
def lookupEnt : List (String × entityImpl ω V) → String → Option (entityImpl ω V)
  | [], _ => none
  | (k, e) :: rest, key => if k = key then some e else lookupEnt rest key

/-- Go map write `c.entities[entityName] = entity`: replace the entry in
place, or append a fresh one. -/
def insertEnt : List (String × entityImpl ω V) → String → entityImpl ω V →
    List (String × entityImpl ω V)
  | [], key, e => [(key, e)]
  | (k, e') :: rest, key, e =>
      if k = key then (key, e) :: rest else (k, e') :: insertEnt rest key e

/-- `genName[T](name)` returns `fmt.Sprintf("%s<%s>", name, entityName)`
where `entityName` is the printed type identity of `T`. With the container
monomorphic at one `T`, that type string is one fixed token, rendered here
as `T`; the key is injective in `name`, as in the source. -/
def genName (name : String) : String :=
  name ++ "<T>"

/-- The `cleanup := func() error { return nil }` default release closure. -/
def noopCleanup : CleanupFn ω := fun w => (w, none)

/-- Outcome of `entityImpl.Setup`: the release closure on success, the Go
error on setup failure, or a propagating nil-function-call panic. -/
inductive SetupStep (ω : Type u) where
  | ok (cl : CleanupFn ω)
  | err (msg : String)
  | nilPanic

/-- `func (e *entityImpl[T]) Setup() (func() error, error)` from src/di.go:
returns the mutated entity, the mutated world, and the outcome. On success
the produced value is stored in `e.val`, the setup function is cleared
unless `noReuse`, and the release closure is bound to this call's `val`
(the guard `e.cleanup != nil` and the captured function are read here). -/
def entityImpl.Setup (e : entityImpl ω V) (w : ω) :
    entityImpl ω V × ω × SetupStep ω :=
  match e.setup with
  | none => (e, w, .ok noopCleanup)
  | some f =>
    let r := f w
    match r.2 with
    | .nilPanic => (e, r.1, .nilPanic)
    | .err msg => (e, r.1, .err msg)
    | .ok val =>
      let e' : entityImpl ω V :=
        { e with val := val, setup := if e.noReuse then e.setup else none }
      match e.cleanup with
      | none => (e', r.1, .ok noopCleanup)
      | some cf => (e', r.1, .ok (fun wc => cf val wc))

/-- `SetNamed[T]`: look the slot up (creating the zero-value slot when
absent), apply each option left to right, store it back. -/
def SetNamed [Inhabited V] (c : Container ω V) (name : String)
    (opts : List (entityImpl ω V → entityImpl ω V)) : Container ω V :=
  let entityName := genName name
  let ent := match lookupEnt c.entities entityName with
    | some e => e
    | none => entityImpl.new
  let ent := opts.foldl (fun e opt => opt e) ent
  { c with entities := insertEnt c.entities entityName ent }

/-- `Set[T]` delegates to `SetNamed` with the empty name. -/
def Set [Inhabited V] (c : Container ω V)
    (opts : List (entityImpl ω V → entityImpl ω V)) : Container ω V :=
  SetNamed c "" opts

/-- What `GetNamed[T]` does for the caller: the value, or one of the two
abort modes (a recorded `panic(err.Error())`, or a propagating nil-call
runtime panic). -/
inductive GetRes (V : Type v) where
  | ok (val : V)
  | panicMsg (msg : String)
  | nilPanic
  deriving Repr, DecidableEq

/-- Message of the `dependency not found` error in `GetNamed`. -/
def notFoundMsg (entityName : String) : String :=
  "dependency not found: " ++ entityName

/-- Message of the `setup dependency ...: cause` error in `GetNamed` (the Go
code interpolates the entity's fmt representation before the colon; the
embedding keeps only the fixed prefix and the wrapped cause). -/
def setupFailMsg (cause : String) : String :=
  "setup dependency: " ++ cause

/-- `GetNamed[T]` from src/di.go. Missing key: append the not-found error to
`c.errs` and panic with its message. Setup error: append the wrapping error
and panic with its message. Nil-call panic inside setup: propagate, recording
nothing. Success: push the release closure onto `c.cleanup` and return
`entity.val`. -/
def GetNamed (c : Container ω V) (name : String) (w : ω) :
    Container ω V × ω × GetRes V :=
  let entityName := genName name
  match lookupEnt c.entities entityName with
  | none =>
    let msg := notFoundMsg entityName
    ({ c with errs := c.errs ++ [msg] }, w, .panicMsg msg)
  | some ent =>
    let r := ent.Setup w
    match r.2.2 with
    | .nilPanic =>
      ({ c with entities := insertEnt c.entities entityName r.1 }, r.2.1, .nilPanic)
    | .err msg =>
      let msg' := setupFailMsg msg
      ({ c with entities := insertEnt c.entities entityName r.1,
                errs := c.errs ++ [msg'] }, r.2.1, .panicMsg msg')
    | .ok cl =>
      ({ c with entities := insertEnt c.entities entityName r.1,
                cleanup := c.cleanup ++ [cl] }, r.2.1, .ok r.1.val)

/-- `Get[T]` delegates to `GetNamed` with the empty name. -/
def Get (c : Container ω V) (w : ω) : Container ω V × ω × GetRes V :=
  GetNamed c "" w

/-- `errors.Join` on the accumulated list: `nil` when the list is empty,
otherwise one error whose message joins every entry with a newline. -/
def joinErrors (errs : List String) : Option String :=
  if errs.isEmpty then none else some (String.intercalate "\n" errs)

/-- The drain loop of `Container.Cleanup`, running over the release stack
already reversed (Go iterates `i` from `len-1` down to `0`): invoke each
closure in order, thread the world, and collect the non-nil error messages
in invocation order. -/
def drainRev : List (CleanupFn ω) → ω → ω × List String
  | [], w => (w, [])
  | f :: rest, w =>
    let r₁ := f w
    let r₂ := drainRev rest r₁.1
    match r₁.2 with
    | none => r₂
    | some msg => (r₂.1, msg :: r₂.2)

/-- `func (c *Container) Cleanup() error` from src/di.go: drain the release
stack from last to first, appending every non-nil error to `c.errs`, and
return `errors.Join(c.errs...)`. The stack itself is left as it was. -/
def Container.Cleanup (c : Container ω V) (w : ω) :
    Container ω V × ω × Option String :=
  let r := drainRev c.cleanup.reverse w
  let errs' := c.errs ++ r.2
  ({ c with errs := errs' }, r.1, joinErrors errs')

/-- `OptSetup`. -/
def OptSetup (f : SetupFn ω V) : entityImpl ω V → entityImpl ω V :=
  fun s => { s with setup := some f }

/-- `OptNoReuse`. -/
def OptNoReuse : entityImpl ω V → entityImpl ω V :=
  fun s => { s with noReuse := true }

/-- `OptMiddleware`: capture the current setup function and replace it by a
closure that invokes the captured one (a nil-function-call panic when it was
absent), short-circuits its error, and otherwise pipes the value through the
middleware. -/
def OptMiddleware (f : V → SetupFn ω V) : entityImpl ω V → entityImpl ω V :=
  fun s =>
    let setup := s.setup
    { s with setup := some (fun w =>
        match setup with
        | none => (w, .nilPanic)
        | some g =>
          match g w with
          | (w', .nilPanic) => (w', .nilPanic)
          | (w', .err msg) => (w', .err msg)
          | (w', .ok val) => f val w') }

/-- `OptCleanup`. -/
def OptCleanup (f : V → CleanupFn ω) : entityImpl ω V → entityImpl ω V :=
  fun s => { s with cleanup := some f }

/-- How many entries a resolution with this outcome pushes onto the release
stack: one on success, none on either abort path. -/
def pushCount : GetRes V → Nat
  | .ok _ => 1
  | .panicMsg _ => 0
  | .nilPanic => 0

/-- The shared-counter setup used by the no-reuse test scenario
(`TestReuse` in src/di_test.go): increment the counter and return it. -/
def countSetup : SetupFn Nat Nat := fun n => (n + 1, .ok (n + 1))

/-- Resolve the same name `k` times in sequence, collecting the `k`
per-resolution outcomes in order. -/
def getIter (name : String) : Nat → Container ω V → ω → Container ω V × ω × List (GetRes V)
  | 0, c, w => (c, w, [])
  | k + 1, c, w =>
    let r := GetNamed c name w
    let r' := getIter name k r.1 r.2.1
    (r'.1, r'.2.1, r.2.2 :: r'.2.2)

/-- Modelled from the spec's words for §4.3 (for comparison with the setup
function that `OptMiddleware` actually installs): the composition
`() → B(A(S()))` — run `S`, pipe its value through `A`, then through `B`,
short-circuiting errors and panics. -/
def chainSpec (S : SetupFn ω V) (A B : V → SetupFn ω V) : SetupFn ω V :=
  fun w =>
    let rS := S w
    match rS.2 with
    | .nilPanic => (rS.1, .nilPanic)
    | .err msg => (rS.1, .err msg)
    | .ok v₁ =>
      let rA := A v₁ rS.1
      match rA.2 with
      | .nilPanic => (rA.1, .nilPanic)
      | .err msg => (rA.1, .err msg)
      | .ok v₂ => B v₂ rA.1

/-- The error-join test scenario (`TestDeinit` in src/di_test.go, with three
named slots of one type): releases err `"1"`, `"2"`, `"3"`; the slots are
resolved in registration order. -/
def threeSlotScenario : Container Unit Nat :=
  let c : Container Unit Nat := New
  let c := SetNamed c "a"
    [OptSetup (fun w => (w, .ok 0)), OptCleanup (fun _ w => (w, some "1"))]
  let c := SetNamed c "b"
    [OptSetup (fun w => (w, .ok 0)), OptCleanup (fun _ w => (w, some "2"))]
  let c := SetNamed c "c"
    [OptSetup (fun w => (w, .ok 0)), OptCleanup (fun _ w => (w, some "3"))]
  let c := (GetNamed c "a" ()).1
  let c := (GetNamed c "b" ()).1
  (GetNamed c "c" ()).1

/-- One slot whose release appends `7` to the world log and errs `"1"`,
resolved once: the double-`Cleanup` scenario. -/
def onceResolvedSlot : Container (List Nat) Unit :=
  (GetNamed
    (SetNamed New "x"
      [OptSetup (fun w => (w, .ok ())),
       OptCleanup (fun _ w => (w ++ [7], some "1"))])
    "x" []).1

/-- Looking up the key just written finds the written entity. -/
theorem lookupEnt_insertEnt_self {ω : Type u} {V : Type v}
    (l : List (String × entityImpl ω V)) (k : String) (e : entityImpl ω V) :
    lookupEnt (insertEnt l k e) k = some e := by
  induction l with
  | nil => simp [insertEnt, lookupEnt]
  | cons p rest ih =>
    obtain ⟨a, b⟩ := p
    by_cases h : a = k
    · subst h
      simp [insertEnt, lookupEnt]
    · simp [insertEnt, h, lookupEnt, ih]

/-- Writing back the entity a key already maps to leaves the map unchanged. -/
theorem insertEnt_self_of_lookup {ω : Type u} {V : Type v}
    (l : List (String × entityImpl ω V)) (k : String) (e : entityImpl ω V)
    (h : lookupEnt l k = some e) : insertEnt l k e = l := by
  induction l with
  | nil => simp [lookupEnt] at h
  | cons p rest ih =>
    obtain ⟨a, b⟩ := p
    by_cases hk : a = k
    · subst hk
      have hb : b = e := by simpa [lookupEnt] using h
      subst hb
      simp [insertEnt]
    · simp only [lookupEnt, if_neg hk] at h
      simp [insertEnt, hk, ih h]

/-- Draining a stack of world-logging release actions appends their ids to
the log in list order. -/
theorem drainRev_map_append (errOf : Nat → Option String) :
    ∀ (l : List Nat) (w : List Nat),
      (drainRev (l.map (fun i => fun s => (s ++ [i], errOf i))) w).1 = w ++ l := by
  intro l
  induction l with
  | nil => intro w; simp [drainRev]
  | cons i rest ih =>
    intro w
    cases he : errOf i with
    | none => simp [drainRev, he, ih]
    | some m => simp [drainRev, he, ih]

/-- C1: for slots registering release actions R1..RN in resolution order, a
single `Cleanup()` invokes them in reverse order RN..R1 (first conjunct:
with the stack holding N world-logging actions in resolution order, the
world trace after `Cleanup` is their reverse); and the release stack order
is the resolution order (second conjunct: every `GetNamed` call extends the
stack in place, appending exactly one entry on success and none on either
abort path). -/
theorem C1_release_stack_lifo :
    (∀ (ids : List Nat) (errOf : Nat → Option String)
        (ents : List (String × entityImpl (List Nat) Unit))
        (errs : List String) (w : List Nat),
        (Container.Cleanup ⟨ents, ids.map (fun i => fun s => (s ++ [i], errOf i)), errs⟩ w).2.1
          = w ++ ids.reverse) ∧
    (∀ (ω V : Type) (c : Container ω V) (name : String) (w : ω),
        c.cleanup <+: (GetNamed c name w).1.cleanup ∧
        (GetNamed c name w).1.cleanup.length
          = c.cleanup.length + pushCount (GetNamed c name w).2.2) := by
  constructor
  · intro ids errOf ents errs w
    have h := drainRev_map_append errOf ids.reverse w
    show (drainRev ((ids.map fun i => fun s => (s ++ [i], errOf i)).reverse) w).1 = w ++ ids.reverse
    rw [← List.map_reverse]
    exact h
  · intro ω V c name w
    cases hl : lookupEnt c.entities (genName name) with
    | none => simp [GetNamed, hl, pushCount]
    | some ent =>
      cases hs : (entityImpl.Setup ent w).2.2 with
      | nilPanic => simp [GetNamed, hl, hs, pushCount]
      | err m => simp [GetNamed, hl, hs, pushCount]
      | ok cl => simp [GetNamed, hl, hs, pushCount]

/-- C5 counterexample: one resolved slot whose release logs `7` and errs
`"1"`. The first `Cleanup()` leaves the log at `[7]` and reports `"1"`; the
second `Cleanup()` invokes the release again (log `[7, 7]`) and reports
`"1\n1"`, not the first report — refuting both halves of the claim. -/
theorem C5_counterexample :
    (onceResolvedSlot.Cleanup []).2.1 = [7] ∧
    (onceResolvedSlot.Cleanup []).2.2 = some "1" ∧
    ((onceResolvedSlot.Cleanup []).1.Cleanup (onceResolvedSlot.Cleanup []).2.1).2.1 = [7, 7] ∧
    ((onceResolvedSlot.Cleanup []).1.Cleanup (onceResolvedSlot.Cleanup []).2.1).2.2
      = some ("1" ++ "\n" ++ "1") ∧
    ((onceResolvedSlot.Cleanup []).1.Cleanup (onceResolvedSlot.Cleanup []).2.1).2.2
      ≠ (onceResolvedSlot.Cleanup []).2.2 := by
  refine ⟨rfl, rfl, rfl, rfl, ?_⟩
  decide

/-- C5 amended: `Cleanup()` never clears the release stack, so a second
`Cleanup()` re-drains the same stack in the same reverse order, appends any
non-nil errors the re-invoked releases return to the accumulated log, and
returns the join of that extended log — which equals the first report only
when the re-run drain collects no errors. -/
theorem C5_amended_second_cleanup (ω V : Type) (c : Container ω V) (w : ω) :
    ((c.Cleanup w).1).cleanup = c.cleanup ∧
    ((c.Cleanup w).1.Cleanup (c.Cleanup w).2.1).2.1
      = (drainRev c.cleanup.reverse (c.Cleanup w).2.1).1 ∧
    ((c.Cleanup w).1.Cleanup (c.Cleanup w).2.1).1.errs
      = (c.Cleanup w).1.errs ++ (drainRev c.cleanup.reverse (c.Cleanup w).2.1).2 ∧
    ((c.Cleanup w).1.Cleanup (c.Cleanup w).2.1).2.2
      = joinErrors (((c.Cleanup w).1.Cleanup (c.Cleanup w).2.1).1.errs) ∧
    ((drainRev c.cleanup.reverse (c.Cleanup w).2.1).2 = [] →
      ((c.Cleanup w).1.Cleanup (c.Cleanup w).2.1).2.2 = (c.Cleanup w).2.2) := by
  refine ⟨rfl, rfl, rfl, rfl, ?_⟩
  intro h
  show joinErrors ((c.Cleanup w).1.errs ++ (drainRev c.cleanup.reverse (c.Cleanup w).2.1).2)
    = (c.Cleanup w).2.2
  rw [h, List.append_nil]
  rfl

theorem C5_amended_second_cleanup_witness :
    (drainRev (New : Container Unit Unit).cleanup.reverse
        ((New : Container Unit Unit).Cleanup ()).2.1).2 = [] ∧
    (((New : Container Unit Unit).Cleanup ()).1.Cleanup
        ((New : Container Unit Unit).Cleanup ()).2.1).2.2
      = ((New : Container Unit Unit).Cleanup ()).2.2 :=
  ⟨rfl, (C5_amended_second_cleanup Unit Unit New ()).2.2.2.2 rfl⟩

/-- C9: registering a slot with only a cleanup function and never resolving
it contributes nothing to the release stack: registration leaves the stack
and the error log untouched and `Cleanup()`'s world effects and report are
those of the original container (first conjunct); concretely, a never-
resolved cleanup-only slot's logging release is never invoked by
`Cleanup()` (second and third conjuncts). -/
theorem C9_unresolved_slot_never_released :
    (∀ (ω V : Type) [Inhabited V] (c : Container ω V) (name : String)
        (cf : V → CleanupFn ω) (w : ω),
        (SetNamed c name [OptCleanup cf]).cleanup = c.cleanup ∧
        (SetNamed c name [OptCleanup cf]).errs = c.errs ∧
        ((SetNamed c name [OptCleanup cf]).Cleanup w).2 = (c.Cleanup w).2) ∧
    ((SetNamed (New : Container (List String) Unit) "p"
        [OptCleanup (fun _ w => (w ++ ["released"], none))]).Cleanup []).2.1 = [] ∧
    ((SetNamed (New : Container (List String) Unit) "p"
        [OptCleanup (fun _ w => (w ++ ["released"], none))]).Cleanup []).2.2 = none := by
  refine ⟨?_, rfl, rfl⟩
  intro ω V _ c name cf w
  exact ⟨rfl, rfl, rfl⟩

/-- C8: `Cleanup()` joins every collected error with each message on its own
line — concretely, three releases erring `"1"`, `"2"`, `"3"` for slots
resolved in registration order report exactly `"3\n2\n1"` (first conjunct);
a container where nothing was resolved and no error recorded reports no
error (second conjunct); and in general the final log is the fatal resolve
errors in occurrence order followed by the drain errors in stack-drain
order, joined (third conjunct). -/
theorem C8_error_join_formatting :
    (threeSlotScenario.Cleanup ()).2.2 = some ("3" ++ "\n" ++ ("2" ++ "\n" ++ "1")) ∧
    ((New : Container Unit Nat).Cleanup ()).2.2 = none ∧
    (∀ (ω V : Type) (c : Container ω V) (w : ω),
        (c.Cleanup w).1.errs = c.errs ++ (drainRev c.cleanup.reverse w).2 ∧
        (c.Cleanup w).2.2 = joinErrors ((c.Cleanup w).1.errs)) := by
  refine ⟨rfl, rfl, ?_⟩
  intro ω V c w
  exact ⟨rfl, rfl⟩

/-- C2: with the reuse policy at its default, resolving the same key twice
returns the identical cached value both times and runs the setup exactly
once: the first resolve ends at world `w'` (one run of `f`), stores `v` and
clears the setup function; the second resolve is the no-op path — it leaves
the world at `w'`, pushes a no-op release, and returns the cached `v`. -/
theorem C2_reuse_caches_value (ω V : Type) [Inhabited V] (f : SetupFn ω V)
    (w w' : ω) (v : V) (h : f w = (w', .ok v)) :
    Get (Set (New : Container ω V) [OptSetup f]) w
      = (⟨[(genName "", ⟨none, none, false, v⟩)], [noopCleanup], []⟩, w', .ok v) ∧
    Get (Get (Set (New : Container ω V) [OptSetup f]) w).1
        (Get (Set (New : Container ω V) [OptSetup f]) w).2.1
      = (⟨[(genName "", ⟨none, none, false, v⟩)], [noopCleanup, noopCleanup], []⟩,
         w', .ok v) := by
  have h1 : Get (Set (New : Container ω V) [OptSetup f]) w
      = (⟨[(genName "", ⟨none, none, false, v⟩)], [noopCleanup], []⟩, w', .ok v) := by
    simp [Get, GetNamed, Set, SetNamed, New, entityImpl.Setup, entityImpl.new,
      OptSetup, insertEnt, lookupEnt, h]
  refine ⟨h1, ?_⟩
  rw [h1]
  simp [Get, GetNamed, entityImpl.Setup, insertEnt, lookupEnt]

theorem C2_reuse_caches_value_witness :
    Get (Set (New : Container Nat Nat) [OptSetup (fun n => (n + 1, SetupRes.ok 42))]) 0
      = (⟨[(genName "", ⟨none, none, false, 42⟩)], [noopCleanup], []⟩, 1, .ok 42) :=
  (C2_reuse_caches_value Nat Nat (fun n => (n + 1, SetupRes.ok 42)) 0 1 42 rfl).1

/-- C4: registering middleware `A` and then middleware `B` over a slot whose
current setup is `S` yields the slot with its setup replaced by the
left-to-right composition `() → B(A(S()))` (`chainSpec`) and every other
field — in particular the release function — unchanged. -/
theorem C4_middleware_composes (ω V : Type) (S : SetupFn ω V)
    (cl : Option (V → CleanupFn ω)) (nr : Bool) (v : V) (A B : V → SetupFn ω V) :
    OptMiddleware B (OptMiddleware A ⟨some S, cl, nr, v⟩)
      = ⟨some (chainSpec S A B), cl, nr, v⟩ := by
  have h0 : OptMiddleware B (OptMiddleware A ⟨some S, cl, nr, v⟩)
      = ⟨some (fun w =>
          match (match S w with
                 | (w₁, SetupRes.nilPanic) => (w₁, SetupRes.nilPanic)
                 | (w₁, SetupRes.err m) => (w₁, SetupRes.err m)
                 | (w₁, SetupRes.ok val) => A val w₁) with
          | (w₂, SetupRes.nilPanic) => (w₂, SetupRes.nilPanic)
          | (w₂, SetupRes.err m) => (w₂, SetupRes.err m)
          | (w₂, SetupRes.ok val) => B val w₂), cl, nr, v⟩ := rfl
  have hfun : (fun w =>
          match (match S w with
                 | (w₁, SetupRes.nilPanic) => (w₁, SetupRes.nilPanic)
                 | (w₁, SetupRes.err m) => (w₁, SetupRes.err m)
                 | (w₁, SetupRes.ok val) => A val w₁) with
          | (w₂, SetupRes.nilPanic) => (w₂, SetupRes.nilPanic)
          | (w₂, SetupRes.err m) => (w₂, SetupRes.err m)
          | (w₂, SetupRes.ok val) => B val w₂)
      = chainSpec S A B := by
    funext w
    rcases hS : S w with ⟨w₁, r₁⟩
    cases r₁ with
    | nilPanic => simp [chainSpec, hS]
    | err m => simp [chainSpec, hS]
    | ok val =>
      rcases hA : A val w₁ with ⟨w₂, r₂⟩
      cases r₂ <;> simp [chainSpec, hS, hA]
  rw [h0, hfun]

/-- C6: when a slot's setup function returns an error, the resolve leaves
the slot (cached value and setup function) and the release stack unchanged,
appends the wrapping setup-failure error to the registry's error log, and
aborts with that error's message. -/
theorem C6_setup_failure_is_recorded (ω V : Type)
    (ents : List (String × entityImpl ω V)) (stack : List (CleanupFn ω))
    (errs : List String) (name : String) (e : entityImpl ω V)
    (f : SetupFn ω V) (w : ω) (m : String)
    (he : lookupEnt ents (genName name) = some e) (hf : e.setup = some f)
    (hw : (f w).2 = SetupRes.err m) :
    GetNamed (⟨ents, stack, errs⟩ : Container ω V) name w
      = (⟨ents, stack, errs ++ [setupFailMsg m]⟩, (f w).1,
         .panicMsg (setupFailMsg m)) := by
  have hins := insertEnt_self_of_lookup ents (genName name) e he
  simp [GetNamed, he, entityImpl.Setup, hf, hw, hins]

theorem C6_setup_failure_is_recorded_witness :
    GetNamed (⟨[(genName "n",
        ⟨some (fun n => (n, SetupRes.err "boom")), none, false, 0⟩)], [], []⟩
        : Container Nat Nat) "n" 5
      = (⟨[(genName "n",
          ⟨some (fun n => (n, SetupRes.err "boom")), none, false, 0⟩)], [],
          [setupFailMsg "boom"]⟩, 5, .panicMsg (setupFailMsg "boom")) :=
  C6_setup_failure_is_recorded Nat Nat
    [(genName "n", ⟨some (fun n => (n, SetupRes.err "boom")), none, false, 0⟩)] [] [] "n"
    ⟨some (fun n => (n, SetupRes.err "boom")), none, false, 0⟩
    (fun n => (n, SetupRes.err "boom")) 5 "boom" (by simp [lookupEnt]) rfl rfl

/-- Joining a list that contains a message is not the nil error. -/
theorem joinErrors_ne_none_of_mem (l : List String) (m : String) (h : m ∈ l) :
    joinErrors l ≠ none := by
  cases l with
  | nil => simp at h
  | cons a rest => simp [joinErrors]

/-- C7: resolving a key with no registered slot records the not-found error
in the registry's error log and then aborts with it, touching nothing else;
and that error is among the errors a later `Cleanup()` joins, whose report
is therefore not the nil error. -/
theorem C7_not_found_fatal (ω V : Type) (ents : List (String × entityImpl ω V))
    (stack : List (CleanupFn ω)) (errs : List String) (name : String) (w w₂ : ω)
    (h : lookupEnt ents (genName name) = none) :
    GetNamed (⟨ents, stack, errs⟩ : Container ω V) name w
      = (⟨ents, stack, errs ++ [notFoundMsg (genName name)]⟩, w,
         .panicMsg (notFoundMsg (genName name))) ∧
    notFoundMsg (genName name)
      ∈ ((⟨ents, stack, errs ++ [notFoundMsg (genName name)]⟩ : Container ω V).Cleanup w₂).1.errs ∧
    ((⟨ents, stack, errs ++ [notFoundMsg (genName name)]⟩ : Container ω V).Cleanup w₂).2.2
      = joinErrors (((⟨ents, stack, errs ++ [notFoundMsg (genName name)]⟩ : Container ω V).Cleanup w₂).1.errs) ∧
    ((⟨ents, stack, errs ++ [notFoundMsg (genName name)]⟩ : Container ω V).Cleanup w₂).2.2
      ≠ none := by
  have hmem : notFoundMsg (genName name)
      ∈ ((⟨ents, stack, errs ++ [notFoundMsg (genName name)]⟩ : Container ω V).Cleanup w₂).1.errs := by
    show notFoundMsg (genName name)
      ∈ (errs ++ [notFoundMsg (genName name)]) ++ (drainRev stack.reverse w₂).2
    simp
  refine ⟨by simp [GetNamed, h], hmem, rfl, ?_⟩
  exact joinErrors_ne_none_of_mem _ _ hmem

theorem C7_not_found_fatal_witness :
    GetNamed (⟨[], [], []⟩ : Container Nat Nat) "ghost" 0
      = (⟨[], [], [notFoundMsg (genName "ghost")]⟩, 0,
         .panicMsg (notFoundMsg (genName "ghost"))) ∧
    ((⟨[], [], [notFoundMsg (genName "ghost")]⟩ : Container Nat Nat).Cleanup 0).2.2 ≠ none :=
  ⟨(C7_not_found_fatal Nat Nat [] [] [] "ghost" 0 0 rfl).1,
   (C7_not_found_fatal Nat Nat [] [] [] "ghost" 0 0 rfl).2.2.2⟩

/-- C10: applying `OptMiddleware` to a slot whose current setup function is
absent installs a non-nil setup closure that invokes the captured nil
function, so the next resolve of that key crashes with a nil-function-call
panic (recording nothing and pushing nothing), where resolving the slot
without the middleware would have been the no-op resolution returning the
cached value. -/
theorem C10_middleware_over_nil_setup (ω V : Type) [Inhabited V]
    (c : Container ω V) (name : String) (s : entityImpl ω V)
    (f : V → SetupFn ω V) (w : ω)
    (hs : lookupEnt c.entities (genName name) = some s) (hnil : s.setup = none) :
    (OptMiddleware f s).setup = some (fun w0 => (w0, SetupRes.nilPanic)) ∧
    GetNamed (SetNamed c name [OptMiddleware f]) name w
      = (SetNamed c name [OptMiddleware f], w, .nilPanic) ∧
    GetNamed c name w
      = ({ c with cleanup := c.cleanup ++ [noopCleanup] }, w, .ok s.val) := by
  have h1 : (OptMiddleware f s).setup = some (fun w0 => (w0, SetupRes.nilPanic)) := by
    simp [OptMiddleware, hnil]
  refine ⟨h1, ?_, ?_⟩
  · have hlook := lookupEnt_insertEnt_self c.entities (genName name) (OptMiddleware f s)
    have hins := insertEnt_self_of_lookup _ _ _ hlook
    simp [SetNamed, GetNamed, hs, hlook, hins, entityImpl.Setup, h1]
  · have hins := insertEnt_self_of_lookup _ _ _ hs
    simp [GetNamed, hs, entityImpl.Setup, hnil, hins]

theorem C10_middleware_over_nil_setup_witness :
    GetNamed (SetNamed (⟨[(genName "m", ⟨none, none, false, 0⟩)], [], []⟩ : Container Nat Nat)
        "m" [OptMiddleware (fun v => fun w => (w, SetupRes.ok v))]) "m" 3
      = (SetNamed (⟨[(genName "m", ⟨none, none, false, 0⟩)], [], []⟩ : Container Nat Nat)
          "m" [OptMiddleware (fun v => fun w => (w, SetupRes.ok v))], 3, .nilPanic) :=
  (C10_middleware_over_nil_setup Nat Nat _ "m" ⟨none, none, false, 0⟩
    (fun v => fun w => (w, SetupRes.ok v)) 3 (by simp [lookupEnt]) rfl).2.1

/-- One no-reuse resolve of the shared-counter slot: the setup runs (counter
`n` becomes `n + 1`), the produced value `n + 1` is cached while the setup
function stays in place, exactly one release closure — bound to this
resolution's value `n + 1` — is pushed, and the call returns `n + 1`. -/
theorem noReuse_resolve_step (cf : Nat → CleanupFn Nat)
    (ents : List (String × entityImpl Nat Nat)) (stack : List (CleanupFn Nat))
    (errs : List String) (name : String) (v n : Nat)
    (h : lookupEnt ents (genName name) = some ⟨some countSetup, some cf, true, v⟩) :
    GetNamed (⟨ents, stack, errs⟩ : Container Nat Nat) name n
      = (⟨insertEnt ents (genName name) ⟨some countSetup, some cf, true, n + 1⟩,
          stack ++ [cf (n + 1)], errs⟩, n + 1, .ok (n + 1)) := by
  simp [GetNamed, h, entityImpl.Setup, countSetup]

/-- Iterating `K` no-reuse resolutions of the shared-counter slot from
counter `n`: the counter ends at `n + K`, the results are `n+1 .. n+K` in
order, and the stack gains `K` release closures, the `i`-th bound to its own
value `i`. -/
theorem getIter_noReuse (cf : Nat → CleanupFn Nat) (name : String) :
    ∀ (K : Nat) (ents : List (String × entityImpl Nat Nat)) (stack : List (CleanupFn Nat))
      (errs : List String) (v n : Nat),
      lookupEnt ents (genName name) = some ⟨some countSetup, some cf, true, v⟩ →
      ∃ ents' v',
        getIter name K (⟨ents, stack, errs⟩ : Container Nat Nat) n
          = (⟨ents', stack ++ (List.range' (n + 1) K).map (fun i => cf i), errs⟩, n + K,
             (List.range' (n + 1) K).map (fun i => GetRes.ok i)) ∧
        lookupEnt ents' (genName name) = some ⟨some countSetup, some cf, true, v'⟩ := by
  intro K
  induction K with
  | zero =>
    intro ents stack errs v n h
    exact ⟨ents, v, by simp [getIter], h⟩
  | succ k ih =>
    intro ents stack errs v n h
    have hstep := noReuse_resolve_step cf ents stack errs name v n h
    have hlook := lookupEnt_insertEnt_self ents (genName name)
      ⟨some countSetup, some cf, true, n + 1⟩
    obtain ⟨ents', v', hIter, hl'⟩ := ih
      (insertEnt ents (genName name) ⟨some countSetup, some cf, true, n + 1⟩)
      (stack ++ [cf (n + 1)]) errs (n + 1) (n + 1) hlook
    refine ⟨ents', v', ?_, hl'⟩
    simp [getIter, hstep, hIter, List.range'_succ]
    omega

/-- C3: a slot registered with `OptNoReuse`, the shared-counter setup and a
release function `cf`, resolved `K` times from counter `n`, runs the setup
`K` times (the counter ends at `n + K`), returns the `K` per-resolution
values `n+1 .. n+K`, and pushes `K` independent release closures, each the
release function applied to that resolution's own produced value. -/
theorem C3_noreuse_k_resolutions (cf : Nat → CleanupFn Nat) (K n : Nat) :
    ∃ ents',
      getIter "" K (Set (New : Container Nat Nat)
          [OptSetup countSetup, OptCleanup cf, OptNoReuse]) n
        = (⟨ents', (List.range' (n + 1) K).map (fun i => cf i), []⟩, n + K,
           (List.range' (n + 1) K).map (fun i => GetRes.ok i)) := by
  obtain ⟨ents', v', hIter, hl'⟩ := getIter_noReuse cf "" K
    [(genName "", ⟨some countSetup, some cf, true, 0⟩)] [] [] 0 n (by simp [lookupEnt])
  exact ⟨ents', by simpa using hIter⟩

end DI
